/-
  Verification of the gamemon play-monitoring core (src/gamemon.py).

  Shallow embedding: the pure data transformations of the refresh loop
  (play extraction / dedupe, score-delta classification, play tagging,
  emoji selection, display-buffer maintenance, finalization) are
  translated into Lean functions; the stateful refresh loop becomes a
  `tick` function on an explicit `AppState`, and a session is a fold of
  `tick` over a list of fetch results (`none` models a failed/empty
  fetch, mirroring `fetch_json` returning `{}` on any transport error).
-/
import Mathlib

namespace Gamemon

/-- Python truthiness test on `s in hay` substring search, over char lists:
`infixAt hay needle` is `needle in hay`. -/
def infixAt : List Char → List Char → Bool
  | [], n => n.isEmpty
  | h :: t, n => n.isPrefixOf (h :: t) || infixAt t n

/-- `strHas hay needle` models Python `needle in hay` for strings. -/
def strHas (hay needle : String) : Bool :=
  infixAt hay.data needle.data

/-- ASCII lower-casing of one character (models `str.lower` on the
ASCII play text this feed produces). -/
def lowerChar (c : Char) : Char :=
  if 'A' ≤ c && c ≤ 'Z' then Char.ofNat (c.toNat + 32) else c

/-- `s.lower()` on a string. -/
def lowerStr (s : String) : String :=
  ⟨s.data.map lowerChar⟩

/-- The two supported sports (`nfl` / `ncaambb`, whose `sport_type` is
`basketball`). -/
inductive Sport
  | nfl
  | basketball
deriving DecidableEq

/-- A raw play object as it appears in the fetched summary JSON, reduced
to the fields the extraction reads.  `id = none` models a record whose
`"id"` key is absent. -/
structure RawPlay where
  id : Option String
  text : String := ""
  clock : String := ""
  period : Nat := 0
  down : String := ""
  scoring : Bool := false
  typeLabel : String := ""
  team : String := ""
deriving DecidableEq

/-- An extracted play dict as built by `get_plays_nfl` /
`get_plays_basketball` (keys `id`, `text`, `clock`, `period`,
`down`/`type` for NFL, `team` for basketball, `scoring`). -/
structure PlayRecord where
  id : String
  text : String := ""
  clock : String := ""
  period : Nat := 0
  down : String := ""
  scoring : Bool := false
  typeLabel : String := ""
  team : String := ""
deriving DecidableEq

/-- Python truthiness of `play.get("id")`: `None` and `""` are falsy. -/
def truthyId : Option String → Option String
  | none => none
  | some s => if s = "" then none else some s

/-- Shared dedupe/extraction loop of `get_plays_nfl` and
`get_plays_basketball`: walk the raw plays in order; a play whose id is
truthy and not yet seen is marked seen and projected into the output
list, any other play is skipped. -/
def dedupeGo (proj : RawPlay → String → PlayRecord) :
    List RawPlay → Finset String → List PlayRecord × Finset String
  | [], seen => ([], seen)
  | p :: rest, seen =>
    match truthyId p.id with
    | none => dedupeGo proj rest seen
    | some i =>
      if i ∈ seen then dedupeGo proj rest seen
      else
        let r := dedupeGo proj rest (insert i seen)
        (proj p i :: r.1, r.2)

/-- Field projection performed by `get_plays_nfl`. -/
def projNfl (p : RawPlay) (i : String) : PlayRecord :=
  { id := i, text := p.text, clock := p.clock, period := p.period,
    down := p.down, scoring := p.scoring, typeLabel := p.typeLabel }

/-- Field projection performed by `get_plays_basketball`. -/
def projBkb (p : RawPlay) (i : String) : PlayRecord :=
  { id := i, text := p.text, clock := p.clock, period := p.period,
    scoring := p.scoring, team := p.team }

/-- `get_plays_nfl(data, last_play_ids)` on the play list found under
`drives.current.plays`; returns the new plays and the updated seen set
(the Python function mutates the set in place). -/
def get_plays_nfl (plays : List RawPlay) (last_play_ids : Finset String) :
    List PlayRecord × Finset String :=
  dedupeGo projNfl plays last_play_ids

/-- `get_plays_basketball(data, last_play_ids)` on the play list found
under `plays`. -/
def get_plays_basketball (plays : List RawPlay) (last_play_ids : Finset String) :
    List PlayRecord × Finset String :=
  dedupeGo projBkb plays last_play_ids

/-- Sport dispatch on the two extraction functions, as done in
`refresh_data`. -/
def extractPlays : Sport → List RawPlay → Finset String → List PlayRecord × Finset String
  | .nfl => get_plays_nfl
  | .basketball => get_plays_basketball

theorem dedupeGo_nil (proj : RawPlay → String → PlayRecord) (seen : Finset String) :
    dedupeGo proj [] seen = ([], seen) := rfl

theorem dedupeGo_cons_none (proj : RawPlay → String → PlayRecord)
    (p : RawPlay) (rest : List RawPlay) (seen : Finset String)
    (h : truthyId p.id = none) :
    dedupeGo proj (p :: rest) seen = dedupeGo proj rest seen := by
  simp [dedupeGo, h]

theorem dedupeGo_cons_seen (proj : RawPlay → String → PlayRecord)
    (p : RawPlay) (rest : List RawPlay) (seen : Finset String) (i : String)
    (h : truthyId p.id = some i) (hs : i ∈ seen) :
    dedupeGo proj (p :: rest) seen = dedupeGo proj rest seen := by
  simp [dedupeGo, h, hs]

theorem dedupeGo_cons_new (proj : RawPlay → String → PlayRecord)
    (p : RawPlay) (rest : List RawPlay) (seen : Finset String) (i : String)
    (h : truthyId p.id = some i) (hs : i ∉ seen) :
    dedupeGo proj (p :: rest) seen =
      (proj p i :: (dedupeGo proj rest (insert i seen)).1,
       (dedupeGo proj rest (insert i seen)).2) := by
  simp [dedupeGo, h, hs]

/-- The final seen set is the initial one plus the ids of the returned
records. -/
theorem dedupeGo_seen (proj : RawPlay → String → PlayRecord)
    (hproj : ∀ p i, (proj p i).id = i) :
    ∀ (plays : List RawPlay) (seen : Finset String),
      (dedupeGo proj plays seen).2 =
        seen ∪ ((dedupeGo proj plays seen).1.map PlayRecord.id).toFinset := by
  intro plays
  induction plays with
  | nil => intro seen; simp [dedupeGo]
  | cons p rest ih =>
    intro seen
    cases h : truthyId p.id with
    | none => rw [dedupeGo_cons_none proj p rest seen h]; exact ih seen
    | some i =>
      by_cases hs : i ∈ seen
      · rw [dedupeGo_cons_seen proj p rest seen i h hs]; exact ih seen
      · rw [dedupeGo_cons_new proj p rest seen i h hs]
        rw [ih (insert i seen)]
        rw [List.map_cons, hproj, List.toFinset_cons]
        ext x
        simp only [Finset.mem_union, Finset.mem_insert, List.mem_toFinset]
        tauto

/-- Every returned record was unseen, comes from an input record with a
truthy id, and is its projection. -/
theorem dedupeGo_sound (proj : RawPlay → String → PlayRecord)
    (hproj : ∀ p i, (proj p i).id = i) :
    ∀ (plays : List RawPlay) (seen : Finset String) (q : PlayRecord),
      q ∈ (dedupeGo proj plays seen).1 →
        q.id ∉ seen ∧ ∃ p ∈ plays, truthyId p.id = some q.id ∧ q = proj p q.id := by
  intro plays
  induction plays with
  | nil => intro seen q hq; simp [dedupeGo] at hq
  | cons p rest ih =>
    intro seen q hq
    cases h : truthyId p.id with
    | none =>
      rw [dedupeGo_cons_none proj p rest seen h] at hq
      obtain ⟨h1, pp, hp1, hp2⟩ := ih seen q hq
      exact ⟨h1, pp, List.mem_cons_of_mem _ hp1, hp2⟩
    | some i =>
      by_cases hs : i ∈ seen
      · rw [dedupeGo_cons_seen proj p rest seen i h hs] at hq
        obtain ⟨h1, pp, hp1, hp2⟩ := ih seen q hq
        exact ⟨h1, pp, List.mem_cons_of_mem _ hp1, hp2⟩
      · rw [dedupeGo_cons_new proj p rest seen i h hs] at hq
        rcases List.mem_cons.mp hq with hq | hq
        · subst hq
          rw [hproj]
          exact ⟨hs, p, List.mem_cons_self _ _, h, rfl⟩
        · obtain ⟨h1, pp, hp1, hp2⟩ := ih (insert i seen) q hq
          refine ⟨fun hmem => h1 (Finset.mem_insert_of_mem hmem),
            pp, List.mem_cons_of_mem _ hp1, hp2⟩

/-- Completeness: a record whose id is truthy and unseen yields an
output record with that id. -/
theorem dedupeGo_complete (proj : RawPlay → String → PlayRecord)
    (hproj : ∀ p i, (proj p i).id = i) :
    ∀ (plays : List RawPlay) (seen : Finset String) (p : RawPlay) (i : String),
      p ∈ plays → truthyId p.id = some i → i ∉ seen →
        ∃ q ∈ (dedupeGo proj plays seen).1, q.id = i := by
  intro plays
  induction plays with
  | nil => intro seen p i hp; simp at hp
  | cons hd rest ih =>
    intro seen p i hp hid hi
    rcases List.mem_cons.mp hp with hp | hp
    · subst hp
      rw [dedupeGo_cons_new proj p rest seen i hid hi]
      exact ⟨proj p i, List.mem_cons_self _ _, hproj p i⟩
    · cases h : truthyId hd.id with
      | none =>
        rw [dedupeGo_cons_none proj hd rest seen h]
        exact ih seen p i hp hid hi
      | some j =>
        by_cases hs : j ∈ seen
        · rw [dedupeGo_cons_seen proj hd rest seen j h hs]
          exact ih seen p i hp hid hi
        · rw [dedupeGo_cons_new proj hd rest seen j h hs]
          by_cases hij : i = j
          · subst hij
            exact ⟨proj hd i, List.mem_cons_self _ _, hproj hd i⟩
          · have hi' : i ∉ insert j seen := by
              simp only [Finset.mem_insert]
              tauto
            obtain ⟨q, hq1, hq2⟩ := ih (insert j seen) p i hp hid hi'
            exact ⟨q, List.mem_cons_of_mem _ hq1, hq2⟩

/-- Input order is preserved: the output is a sublist of the in-order
projection of the records with truthy ids. -/
theorem dedupeGo_sublist (proj : RawPlay → String → PlayRecord) :
    ∀ (plays : List RawPlay) (seen : Finset String),
      (dedupeGo proj plays seen).1.Sublist
        (plays.filterMap fun p => (truthyId p.id).map (proj p)) := by
  intro plays
  induction plays with
  | nil => intro seen; simp [dedupeGo]
  | cons p rest ih =>
    intro seen
    cases h : truthyId p.id with
    | none =>
      rw [dedupeGo_cons_none proj p rest seen h]
      simpa [List.filterMap_cons, h] using ih seen
    | some i =>
      by_cases hs : i ∈ seen
      · rw [dedupeGo_cons_seen proj p rest seen i h hs]
        simp only [List.filterMap_cons, h, Option.map_some]
        exact List.Sublist.cons _ (ih seen)
      · rw [dedupeGo_cons_new proj p rest seen i h hs]
        simp only [List.filterMap_cons, h, Option.map_some]
        exact List.Sublist.cons₂ _ (ih (insert i seen))

/-- No id is emitted twice in one extraction. -/
theorem dedupeGo_nodup (proj : RawPlay → String → PlayRecord)
    (hproj : ∀ p i, (proj p i).id = i) :
    ∀ (plays : List RawPlay) (seen : Finset String),
      ((dedupeGo proj plays seen).1.map PlayRecord.id).Nodup := by
  intro plays
  induction plays with
  | nil => intro seen; simp [dedupeGo]
  | cons p rest ih =>
    intro seen
    cases h : truthyId p.id with
    | none => rw [dedupeGo_cons_none proj p rest seen h]; exact ih seen
    | some i =>
      by_cases hs : i ∈ seen
      · rw [dedupeGo_cons_seen proj p rest seen i h hs]; exact ih seen
      · rw [dedupeGo_cons_new proj p rest seen i h hs]
        simp only [List.map_cons, List.nodup_cons, hproj]
        refine ⟨?_, ih (insert i seen)⟩
        intro hmem
        obtain ⟨q, hq, hqid⟩ := List.mem_map.mp hmem
        have hns := (dedupeGo_sound proj hproj rest (insert i seen) q hq).1
        rw [hqid] at hns
        exact hns (Finset.mem_insert_self i seen)

/-- The conjunction of properties asserted by the dedupe contract: empty
input yields empty output; the seen set is extended by exactly the
returned ids; input order is preserved (output is a sublist of the
in-order projection); every returned record has a present, previously
unseen identifier and stems from an input record (so records lacking an
identifier are dropped); every unseen present identifier is returned;
and no identifier is returned twice. -/
def dedupeClaimProps (proj : RawPlay → String → PlayRecord)
    (plays : List RawPlay) (seen : Finset String) : Prop :=
  dedupeGo proj [] seen = ([], seen) ∧
  (dedupeGo proj plays seen).2 =
    seen ∪ ((dedupeGo proj plays seen).1.map PlayRecord.id).toFinset ∧
  (dedupeGo proj plays seen).1.Sublist
    (plays.filterMap fun p => (truthyId p.id).map (proj p)) ∧
  (∀ q ∈ (dedupeGo proj plays seen).1,
    q.id ∉ seen ∧ ∃ p ∈ plays, truthyId p.id = some q.id ∧ q = proj p q.id) ∧
  (∀ p ∈ plays, ∀ i, truthyId p.id = some i → i ∉ seen →
    ∃ q ∈ (dedupeGo proj plays seen).1, q.id = i) ∧
  ((dedupeGo proj plays seen).1.map PlayRecord.id).Nodup

/-- C1: for every ordered sequence of raw play records and every set of
already-seen identifiers, the play extraction (dedupe shared by
`get_plays_nfl` and `get_plays_basketball`) returns exactly the records
whose identifier is present and not in the (mutating) seen set, in the
input order, adds each returned identifier to the seen set, silently
drops any record lacking an identifier, and maps empty input to empty
output. -/
theorem claim_C1_dedupe (proj : RawPlay → String → PlayRecord)
    (hproj : ∀ p i, (proj p i).id = i)
    (plays : List RawPlay) (seen : Finset String) :
    dedupeClaimProps proj plays seen :=
  ⟨dedupeGo_nil proj seen, dedupeGo_seen proj hproj plays seen,
   dedupeGo_sublist proj plays seen,
   fun q hq => dedupeGo_sound proj hproj plays seen q hq,
   fun p hp i hid hi => dedupeGo_complete proj hproj plays seen p i hp hid hi,
   dedupeGo_nodup proj hproj plays seen⟩

/-- Concrete input for the C1 witness: a seen id, a fresh id, a record
without id, and a duplicate. -/
def c1plays : List RawPlay :=
  [{ id := some "a", text := "first" }, { id := none, text := "no id" },
   { id := some "b", text := "seen before" }, { id := some "a", text := "dup" }]

theorem claim_C1_dedupe_witness :
    (∀ p i, (projNfl p i).id = i) ∧ dedupeClaimProps projNfl c1plays {"b"} :=
  ⟨fun _ _ => rfl, claim_C1_dedupe projNfl (fun _ _ => rfl) c1plays {"b"}⟩

/-- The three score-delta outcomes of the refresh loop. -/
inductive ScoreDelta
  | noChange
  | awayScored
  | homeScored
deriving DecidableEq

/-- The score-delta classification inlined in `refresh_data`
(lines 872-882): only run when the pair changed; away checked first. -/
def scoreDelta (prev cur : Nat × Nat) : ScoreDelta :=
  if cur ≠ prev then
    if cur.1 > prev.1 then .awayScored
    else if cur.2 > prev.2 then .homeScored
    else .noChange
  else .noChange

/-- C3: the delta classification is AWAY_SCORED if the away score grew,
else HOME_SCORED if the home score grew, else NONE; the quoted examples
hold and a simultaneous increase resolves to AWAY_SCORED. -/
theorem claim_C3_scoreDelta :
    (∀ prev cur : Nat × Nat,
      scoreDelta prev cur =
        if cur.1 > prev.1 then .awayScored
        else if cur.2 > prev.2 then .homeScored
        else .noChange) ∧
    scoreDelta (0, 0) (1, 0) = .awayScored ∧
    scoreDelta (0, 0) (0, 1) = .homeScored ∧
    scoreDelta (2, 3) (2, 4) = .homeScored ∧
    (∀ pa ph a h : Nat, pa < a → ph < h →
      scoreDelta (pa, ph) (a, h) = .awayScored) := by
  refine ⟨?_, by decide, by decide, by decide, ?_⟩
  · intro prev cur
    by_cases h : cur = prev
    · subst h
      simp [scoreDelta]
    · simp [scoreDelta, h]
  · intro pa ph a h ha hh
    have hne : (a, h) ≠ (pa, ph) := by
      intro hEq
      rw [Prod.mk.injEq] at hEq
      omega
    simp [scoreDelta, hne, ha]

theorem claim_C3_scoreDelta_witness :
    0 < 1 ∧ 2 < 3 ∧ scoreDelta (0, 2) (1, 3) = ScoreDelta.awayScored :=
  ⟨by decide, by decide, claim_C3_scoreDelta.2.2.2.2 0 2 1 3 (by decide) (by decide)⟩

/-- `_play_tags(play, sport)`: case-insensitive substring heuristics over
the description text and type label, plus the scoring flag. -/
def _play_tags (p : PlayRecord) (sport : Sport) : Finset String :=
  let text := lowerStr p.text
  let ptype := lowerStr p.typeLabel
  let t0 : Finset String := ∅
  let t1 := if p.scoring then insert "score" t0 else t0
  let t2 :=
    if strHas text "penalty" || strHas ptype "penal" || strHas text "foul"
    then insert "penalty" t1 else t1
  match sport with
  | .nfl =>
    let t3 :=
      if strHas text "intercept" || strHas ptype "intercept" || strHas text "fumble"
      then insert "turnover" t2 else t2
    let t4 :=
      if strHas text "sack" || strHas text "sacked" then insert "sack" t3 else t3
    if strHas text "punt" || strHas ptype "punt" then insert "punt" t4 else t4
  | .basketball =>
    let t3 :=
      if strHas text "turnover" || strHas text "steal" then insert "turnover" t2 else t2
    if strHas text "3" && (strHas text "pt" || strHas text "three")
    then insert "three" t3 else t3

/-- The emoji-override scan of `_play_emoji`: first override whose
truthy needle occurs in the lowered text or type label wins (dict
iteration order is the list order). -/
def overrideLookup : List (String × String) → String → String → Option String
  | [], _, _ => none
  | (needle, emoji) :: rest, text, ptype =>
    if needle ≠ "" && emoji ≠ "" &&
        (strHas text (lowerStr needle) || strHas ptype (lowerStr needle))
    then some emoji
    else overrideLookup rest text ptype

/-- The emoji picked inside the `"score" in tags` branch of
`_play_emoji`. -/
def scoreEmojiFor (sport : Sport) (text ptype : String) (tags : Finset String) : String :=
  match sport with
  | .nfl =>
    if strHas text "touchdown" || strHas ptype "touchdown" then "🏈"
    else if strHas text "field goal" || strHas ptype "field goal" then "🎯"
    else if strHas text "safety" || strHas ptype "safety" then "🛡️"
    else if strHas text "extra point" || strHas ptype "extra point" then "➕"
    else if strHas text "two-point" || strHas text "2-point" then "2️⃣"
    else "🟢"
  | .basketball => if "three" ∈ tags then "🎯" else "🏀"

/-- The emoji picked inside the `"turnover" in tags` branch. -/
def turnoverEmojiFor (sport : Sport) (text ptype : String) : String :=
  if sport = Sport.nfl && (strHas text "intercept" || strHas ptype "intercept")
  then "🧤" else "💥"

/-- The emoji picked inside the `"penalty" in tags` branch. -/
def penaltyEmojiFor (sport : Sport) : String :=
  if sport = Sport.nfl then "🚩" else "🚨"

/-- The run/rush text condition of the last non-default branch. -/
def runCond (text ptype : String) : Bool :=
  strHas text "left" || strHas text "right" || strHas text "up the middle" ||
    strHas text "rush" || strHas ptype "run"

/-- `_play_emoji(play, sport)` with the configured overrides passed
explicitly (the source reads them from the `CONFIG` global). -/
def _play_emoji (overrides : List (String × String)) (p : PlayRecord)
    (sport : Sport) : String :=
  let text := lowerStr p.text
  let ptype := lowerStr p.typeLabel
  match overrideLookup overrides text ptype with
  | some e => e
  | none =>
    let tags := _play_tags p sport
    if "score" ∈ tags then scoreEmojiFor sport text ptype tags
    else if "turnover" ∈ tags then turnoverEmojiFor sport text ptype
    else if "penalty" ∈ tags then penaltyEmojiFor sport
    else if "punt" ∈ tags then "🦵"
    else if "sack" ∈ tags then "🧱"
    else if strHas text "timeout" || strHas ptype "timeout" then "⏱️"
    else if strHas text "miss" || strHas text "incomplete" then "❌"
    else if strHas text "pass" || strHas ptype "pass" then "👍"
    else if runCond text ptype then "🏃"
    else "•"

/-- First defined element of a candidate list. -/
def firstSome : List (Option String) → Option String
  | [] => none
  | some a :: _ => some a
  | none :: rest => firstSome rest

/-- The precedence list stated by the spec: override, score, turnover,
penalty, punt, sack, timeout, miss/incomplete, pass, run; each slot is
filled exactly when its condition matches. -/
def emojiCandidates (overrides : List (String × String)) (p : PlayRecord)
    (sport : Sport) : List (Option String) :=
  let text := lowerStr p.text
  let ptype := lowerStr p.typeLabel
  let tags := _play_tags p sport
  [overrideLookup overrides text ptype,
   if "score" ∈ tags then some (scoreEmojiFor sport text ptype tags) else none,
   if "turnover" ∈ tags then some (turnoverEmojiFor sport text ptype) else none,
   if "penalty" ∈ tags then some (penaltyEmojiFor sport) else none,
   if "punt" ∈ tags then some "🦵" else none,
   if "sack" ∈ tags then some "🧱" else none,
   if strHas text "timeout" || strHas ptype "timeout" then some "⏱️" else none,
   if strHas text "miss" || strHas text "incomplete" then some "❌" else none,
   if strHas text "pass" || strHas ptype "pass" then some "👍" else none,
   if runCond text ptype then some "🏃" else none]

theorem firstSome_nil : firstSome [] = none := rfl

theorem firstSome_none_cons (rest : List (Option String)) :
    firstSome (none :: rest) = firstSome rest := rfl

theorem firstSome_some_cons (a : String) (rest : List (Option String)) :
    firstSome (some a :: rest) = some a := rfl

theorem firstSome_ite_cons (c : Prop) [Decidable c] (a : String)
    (rest : List (Option String)) :
    firstSome ((if c then some a else none) :: rest) =
      if c then some a else firstSome rest := by
  by_cases hc : c <;> simp [hc, firstSome]

theorem getD_ite (c : Prop) [Decidable c] (a : String) (o : Option String)
    (d : String) :
    (if c then some a else o).getD d = if c then a else o.getD d := by
  by_cases hc : c <;> simp [hc]

/-- C8: the rendered emoji/label is unique — `_play_emoji` is a function
— and equals the first hit of the precedence list (override first, then
score, turnover, penalty, punt, sack, timeout, miss/incomplete, pass,
run), with the default bullet when nothing matches. -/
theorem claim_C8_emoji_precedence (overrides : List (String × String))
    (p : PlayRecord) (sport : Sport) :
    _play_emoji overrides p sport =
      (firstSome (emojiCandidates overrides p sport)).getD "•" := by
  unfold _play_emoji emojiCandidates
  cases h : overrideLookup overrides (lowerStr p.text) (lowerStr p.typeLabel) with
  | some e => simp only [h, firstSome_some_cons, Option.getD_some]
  | none =>
    simp only [h, firstSome_none_cons, firstSome_ite_cons, firstSome_nil,
      getD_ite, Option.getD_none]

/-- C7 fails as stated: `_play_tags` only adds `score` when the record's
`scoringPlay` flag is set, never from substring matches, so a football
play whose text is "12-yard touchdown pass" but whose scoring flag is
false gets no `score` tag. -/
theorem claim_C7_counterexample :
    ({ id := "1", text := "12-yard touchdown pass" } : PlayRecord).scoring = false ∧
    "score" ∉ _play_tags { id := "1", text := "12-yard touchdown pass" } Sport.nfl := by
  constructor
  · rfl
  · decide

/-- C7 amended: a football play with text "12-yard touchdown pass" whose
scoring flag is set is tagged `score` (and nothing else); a basketball
play with text "missed three point jumper" and scoring flag unset is
tagged with neither `score` nor `three` (its tag set is empty). -/
theorem claim_C7_amended :
    _play_tags { id := "1", text := "12-yard touchdown pass", scoring := true }
        Sport.nfl = {"score"} ∧
    "score" ∈ _play_tags { id := "1", text := "12-yard touchdown pass", scoring := true }
        Sport.nfl ∧
    "score" ∉ _play_tags { id := "2", text := "missed three point jumper" }
        Sport.basketball ∧
    "three" ∉ _play_tags { id := "2", text := "missed three point jumper" }
        Sport.basketball ∧
    _play_tags { id := "2", text := "missed three point jumper" }
        Sport.basketball = ∅ := by
  refine ⟨by decide, by decide, by decide, by decide, by decide⟩

/-- `format_period(period, sport)`. -/
def format_period (period : Nat) (sport : Sport) : String :=
  match sport with
  | .nfl =>
    if period = 1 then "Q1"
    else if period = 2 then "Q2"
    else if period = 3 then "Q3"
    else if period = 4 then "Q4"
    else if period > 4 then "OT" ++ toString (period - 4)
    else "Q" ++ toString period
  | .basketball =>
    if period = 1 then "1H"
    else if period = 2 then "2H"
    else if period > 2 then "OT" ++ toString (period - 2)
    else "H" ++ toString period

/-- `display_play(play, sport)`: the rendered line for one play. -/
def display_play (overrides : List (String × String)) (p : PlayRecord)
    (sport : Sport) : String :=
  let period := format_period p.period sport
  let clock := p.clock
  let text := p.text
  let emoji := _play_emoji overrides p sport
  let tags := _play_tags p sport
  let time_str :=
    if clock ≠ "" then "[" ++ clock ++ " " ++ period ++ "]" else "[" ++ period ++ "]"
  if "score" ∈ tags then
    match sport with
    | .nfl => emoji ++ " [bold green]SCORE! " ++ time_str ++ "[/bold green] " ++ text
    | .basketball =>
      emoji ++ " [bold green]" ++ time_str ++ " " ++ p.team ++ "[/bold green] " ++ text
  else if "turnover" ∈ tags then
    emoji ++ " [bold yellow]" ++ time_str ++ " TURNOVER[/bold yellow] " ++ text
  else if "penalty" ∈ tags then
    emoji ++ " [yellow]" ++ time_str ++ "[/yellow] " ++ text
  else
    emoji ++ " [dim]" ++ time_str ++ "[/dim] " ++ text

/-- One entry of `self.plays_log` (`{line, raw, tags}`). -/
structure LogEntry where
  line : String
  raw : String
  tags : Finset String
deriving DecidableEq

/-- The entry `_append_play` builds for one play. -/
def mkEntry (overrides : List (String × String)) (sport : Sport)
    (p : PlayRecord) : LogEntry :=
  { line := display_play overrides p sport,
    raw := lowerStr p.text,
    tags := _play_tags p sport }

/-- The observable notifications `refresh_data` can fire in one tick. -/
inductive Event
  | playScore (away home : Nat)
  | awayScoredNotify
  | homeScoredNotify
  | gameOver (away home : Nat)
deriving DecidableEq

/-- Configuration values the loop reads from `CONFIG`. -/
structure Config where
  max_keep : Nat := 1500
  emoji_overrides : List (String × String) := []

/-- The fields of one fetched summary snapshot that `refresh_data`
consumes: the lifecycle-state and detail updates found under
`header.competitions[0].status` (`none` when the key is absent, keeping
the old value), the score pair computed by `get_scores`, and the raw
play list (under `drives.current.plays` for NFL, `plays` for
basketball). -/
structure Snapshot where
  stateUpd : Option String := none
  detailUpd : Option String := none
  scores : Nat × Nat := (0, 0)
  rawPlays : List RawPlay := []
deriving DecidableEq

/-- The mutable state of `GameMonitorApp` (plus the `game` dict fields
`refresh_data` updates). -/
structure AppState where
  last_play_ids : Finset String
  last_scores : Nat × Nat
  initialized : Bool
  static_log : List String
  plays_log : List LogEntry
  finalized : Bool
  net_status : String
  gameState : String
  gameDetail : String
  awayTeam : String
  homeTeam : String
  awayName : String
  homeName : String
deriving DecidableEq

/-- The per-play insert-at-front loop (`self.plays_log.insert(0, ...)`
for each play in order). -/
def appendPlays (overrides : List (String × String)) (sport : Sport)
    (log : List LogEntry) (ps : List PlayRecord) : List LogEntry :=
  ps.foldl (fun acc p => mkEntry overrides sport p :: acc) log

/-- Python `l[-n:]`. -/
def lastN (n : Nat) (l : List α) : List α :=
  l.drop (l.length - n)

/-- The three entries inserted at the head of the buffer on
finalization (score line, FINAL banner, blank), in their final order. -/
def finalEntries (awayTeam homeTeam : String) (scores : Nat × Nat) : List LogEntry :=
  [{ line := "[bold]" ++ awayTeam ++ " " ++ toString scores.1 ++ " - " ++
       toString scores.2 ++ " " ++ homeTeam ++ "[/bold]",
     raw := "final", tags := {"score"} },
   { line := "[bold yellow]FINAL[/bold yellow]", raw := "final", tags := {"score"} },
   { line := "", raw := "", tags := ∅ }]

/-- The first static-log line of the first tick. -/
def monitoringLine (st : AppState) : String :=
  "[bold cyan]Monitoring:[/bold cyan] " ++ st.awayName ++ " @ " ++ st.homeName

/-- The second static-log line of the first tick. -/
def keysLine : String :=
  "[dim]Keys: Q quit | Space pause | F follow | / search | A all | S scores | P penalties | V turnovers[/dim]"

/-- The per-play scoring notifications of one tick, in play order. -/
def playEvents (newPlays : List PlayRecord) (scores : Nat × Nat) : List Event :=
  newPlays.filterMap fun p =>
    if p.scoring then some (Event.playScore scores.1 scores.2) else none

/-- The score-delta notification of one tick. -/
def deltaEvents (prev cur : Nat × Nat) : List Event :=
  match scoreDelta prev cur with
  | .awayScored => [Event.awayScoredNotify]
  | .homeScored => [Event.homeScoredNotify]
  | .noChange => []

/-- The data-processing part of a successful tick: status update,
extraction/dedupe, and the initialized/else branch (buffer population
and play/delta notifications). -/
def tickCore (sport : Sport) (cfg : Config) (st : AppState) (data : Snapshot) :
    AppState × List Event :=
  let st1 := { st with
    net_status := "OK",
    gameState := data.stateUpd.getD st.gameState,
    gameDetail := data.detailUpd.getD st.gameDetail }
  let scores := data.scores
  let pr := extractPlays sport data.rawPlays st1.last_play_ids
  let newPlays := pr.1
  let st2 := { st1 with last_play_ids := pr.2 }
  if st2.initialized = false then
    ({ st2 with
        static_log := st2.static_log ++ [monitoringLine st2, keysLine, ""],
        plays_log :=
          appendPlays cfg.emoji_overrides sport st2.plays_log (lastN 10 newPlays),
        initialized := true,
        last_scores := scores }, ([] : List Event))
  else
    ({ st2 with
        plays_log := appendPlays cfg.emoji_overrides sport st2.plays_log newPlays,
        last_scores := scores },
     playEvents newPlays scores ++ deltaEvents st2.last_scores scores)

/-- The "keep scrollback bounded" trim after the branch. -/
def applyTrim (cfg : Config) (st : AppState) : AppState :=
  if cfg.max_keep < st.plays_log.length
  then { st with plays_log := st.plays_log.take cfg.max_keep }
  else st

/-- The finalization check at the end of the tick: on `post` state,
insert the final summary entries, fire the game-over notification and
stop the loop. -/
def applyFinal (st : AppState) (scores : Nat × Nat) (evs : List Event) :
    AppState × List Event :=
  if st.gameState = "post" then
    ({ st with
        plays_log := finalEntries st.awayTeam st.homeTeam scores ++ st.plays_log,
        finalized := true },
     evs ++ [Event.gameOver scores.1 scores.2])
  else (st, evs)

/-- One call of `GameMonitorApp.refresh_data`: `none` models a fetch
that failed or returned an empty dict.  Returns the new state and the
notifications fired during the tick. -/
def tick (sport : Sport) (cfg : Config) (st : AppState) (fetch : Option Snapshot) :
    AppState × List Event :=
  if st.finalized then (st, [])
  else
    match fetch with
    | none => ({ st with net_status := "NO DATA" }, [])
    | some data =>
      let ce := tickCore sport cfg st data
      applyFinal (applyTrim cfg ce.1) data.scores ce.2

/-- A whole monitoring session: fold `tick` over the fetch results of
successive ticks, collecting each tick's notifications. -/
def run (sport : Sport) (cfg : Config) :
    AppState → List (Option Snapshot) → AppState × List (List Event)
  | st, [] => (st, [])
  | st, f :: fs =>
    let te := tick sport cfg st f
    let rest := run sport cfg te.1 fs
    (rest.1, te.2 :: rest.2)

/-- The state `GameMonitorApp.__init__` builds (plus the selected game's
fields). -/
def initState (awayTeam homeTeam awayName homeName gameState gameDetail : String) :
    AppState :=
  { last_play_ids := ∅, last_scores := (0, 0), initialized := false,
    static_log := [], plays_log := [], finalized := false, net_status := "OK",
    gameState := gameState, gameDetail := gameDetail,
    awayTeam := awayTeam, homeTeam := homeTeam,
    awayName := awayName, homeName := homeName }

theorem appendPlays_eq (overrides : List (String × String)) (sport : Sport) :
    ∀ (ps : List PlayRecord) (log : List LogEntry),
      appendPlays overrides sport log ps =
        (ps.map (mkEntry overrides sport)).reverse ++ log := by
  intro ps
  induction ps with
  | nil => intro log; simp [appendPlays]
  | cons p rest ih =>
    intro log
    simp only [appendPlays, List.foldl_cons, List.map_cons, List.reverse_cons,
      List.append_assoc, List.singleton_append]
    exact ih (mkEntry overrides sport p :: log)

theorem lastN_length (n : Nat) (l : List α) :
    (lastN n l).length = min l.length n := by
  simp only [lastN, List.length_drop]
  omega

theorem tick_of_finalized (sport : Sport) (cfg : Config) (st : AppState)
    (f : Option Snapshot) (h : st.finalized = true) :
    tick sport cfg st f = (st, []) := by
  simp [tick, h]

theorem tick_of_none (sport : Sport) (cfg : Config) (st : AppState)
    (h : st.finalized = false) :
    tick sport cfg st none = ({ st with net_status := "NO DATA" }, []) := by
  simp [tick, h]

/-- C6: a tick whose fetch comes back empty (which is also what a
transport failure produces) only records the degraded connectivity
status: the seen-id set, last score pair, display buffer, initialized
flag and game state are unchanged, the loop stays running, no
notification fires, and `tick` is total (no exception). -/
theorem claim_C6_empty_fetch (sport : Sport) (cfg : Config) (st : AppState)
    (h : st.finalized = false) :
    tick sport cfg st none = ({ st with net_status := "NO DATA" }, []) ∧
    (tick sport cfg st none).1.last_play_ids = st.last_play_ids ∧
    (tick sport cfg st none).1.last_scores = st.last_scores ∧
    (tick sport cfg st none).1.plays_log = st.plays_log ∧
    (tick sport cfg st none).1.initialized = st.initialized ∧
    (tick sport cfg st none).1.gameState = st.gameState ∧
    (tick sport cfg st none).1.finalized = false ∧
    (tick sport cfg st none).2 = [] := by
  have hbase := tick_of_none sport cfg st h
  rw [hbase]
  exact ⟨rfl, rfl, rfl, rfl, rfl, rfl, h, rfl⟩

theorem claim_C6_empty_fetch_witness :
    (initState "DAL" "PHI" "Dallas Cowboys" "Philadelphia Eagles" "in" "Q1").finalized
        = false ∧
    tick Sport.nfl {} (initState "DAL" "PHI" "Dallas Cowboys" "Philadelphia Eagles"
        "in" "Q1") none =
      ({ initState "DAL" "PHI" "Dallas Cowboys" "Philadelphia Eagles" "in" "Q1" with
          net_status := "NO DATA" }, []) :=
  ⟨rfl,
   (claim_C6_empty_fetch Sport.nfl {}
     (initState "DAL" "PHI" "Dallas Cowboys" "Philadelphia Eagles" "in" "Q1") rfl).1⟩

/-- The complete effect of a session's first tick (uninitialized state,
non-empty fetch, game not yet over): buffer = last 10 extracted plays,
no notifications. -/
theorem tick_first (sport : Sport) (cfg : Config)
    (aT hT aN hN gd : String) (snap : Snapshot)
    (hmax : 10 ≤ cfg.max_keep)
    (hpost : snap.stateUpd.getD "in" ≠ "post") :
    tick sport cfg (initState aT hT aN hN "in" gd) (some snap) =
      ({ initState aT hT aN hN "in" gd with
          net_status := "OK",
          gameState := snap.stateUpd.getD "in",
          gameDetail := snap.detailUpd.getD gd,
          last_play_ids := (extractPlays sport snap.rawPlays ∅).2,
          static_log := [monitoringLine (initState aT hT aN hN "in" gd), keysLine, ""],
          plays_log :=
            ((lastN 10 (extractPlays sport snap.rawPlays ∅).1).map
              (mkEntry cfg.emoji_overrides sport)).reverse,
          initialized := true,
          last_scores := snap.scores }, []) := by
  have hle :
      ¬ (cfg.max_keep < (lastN 10 (extractPlays sport snap.rawPlays ∅).1).length) := by
    rw [lastN_length]
    omega
  simp only [tick, tickCore, applyTrim, applyFinal, initState]
  simp only [appendPlays_eq, List.append_nil, List.nil_append]
  simp [hle, hpost, monitoringLine]

theorem tick_of_some (sport : Sport) (cfg : Config) (st : AppState)
    (data : Snapshot) (h : st.finalized = false) :
    tick sport cfg st (some data) =
      applyFinal (applyTrim cfg (tickCore sport cfg st data).1) data.scores
        (tickCore sport cfg st data).2 := by
  simp [tick, h]

/-- On an uninitialized tick the processing branch emits no
notifications at all. -/
theorem tickCore_first_events (sport : Sport) (cfg : Config) (st : AppState)
    (data : Snapshot) (h : st.initialized = false) :
    (tickCore sport cfg st data).2 = [] := by
  simp [tickCore, h]

/-- Any notification a first tick can fire is the game-over one (a
first tick never fires per-play scoring or score-delta
notifications). -/
theorem tick_first_events (sport : Sport) (cfg : Config) (st : AppState)
    (data : Snapshot) (hf : st.finalized = false) (hi : st.initialized = false)
    (e : Event) (he : e ∈ (tick sport cfg st (some data)).2) :
    ∃ a b, e = Event.gameOver a b := by
  rw [tick_of_some sport cfg st data hf] at he
  unfold applyFinal at he
  split at he
  · rw [tickCore_first_events sport cfg st data hi] at he
    simp only [List.nil_append, List.mem_singleton] at he
    exact ⟨data.scores.1, data.scores.2, he⟩
  · rw [tickCore_first_events sport cfg st data hi] at he
    simp at he

/-- C2: on the very first tick, the extracted unseen plays are truncated
to the last 10 before populating the buffer (and those are the only
entries), so 15 unseen plays surface exactly 10 entries, and the tick
fires neither per-play scoring notifications nor score-delta
notifications (under any fetch, a first tick can only fire the
game-over notification). -/
theorem claim_C2_first_tick (sport : Sport) (cfg : Config)
    (aT hT aN hN gd : String) (snap : Snapshot)
    (hmax : 10 ≤ cfg.max_keep)
    (hpost : snap.stateUpd.getD "in" ≠ "post") :
    (∀ (snap2 : Snapshot) (e : Event),
      e ∈ (tick sport cfg (initState aT hT aN hN "in" gd) (some snap2)).2 →
      ∃ a b, e = Event.gameOver a b) ∧
    (tick sport cfg (initState aT hT aN hN "in" gd) (some snap)).1.plays_log =
      ((lastN 10 (extractPlays sport snap.rawPlays ∅).1).map
        (mkEntry cfg.emoji_overrides sport)).reverse ∧
    (tick sport cfg (initState aT hT aN hN "in" gd) (some snap)).1.plays_log.length =
      min (extractPlays sport snap.rawPlays ∅).1.length 10 ∧
    ((extractPlays sport snap.rawPlays ∅).1.length = 15 →
      (tick sport cfg (initState aT hT aN hN "in" gd) (some snap)).1.plays_log.length
        = 10) ∧
    (tick sport cfg (initState aT hT aN hN "in" gd) (some snap)).2 = [] := by
  have hlen :
      ((lastN 10 (extractPlays sport snap.rawPlays ∅).1).map
        (mkEntry cfg.emoji_overrides sport)).reverse.length =
        min (extractPlays sport snap.rawPlays ∅).1.length 10 := by
    simp [lastN_length]
  have hmain := tick_first sport cfg aT hT aN hN gd snap hmax hpost
  refine ⟨?_, ?_⟩
  · intro snap2 e he
    exact tick_first_events sport cfg _ snap2 rfl rfl e he
  · rw [hmain]
    refine ⟨rfl, hlen, ?_, rfl⟩
    intro h15
    rw [hlen, h15]
    decide

/-- Concrete first-tick snapshot with 15 unseen plays. -/
def c2snap : Snapshot :=
  { stateUpd := some "in",
    scores := (7, 3),
    rawPlays := (List.range 15).map fun n => { id := some (toString n) } }

theorem claim_C2_first_tick_witness :
    10 ≤ ({} : Config).max_keep ∧
    c2snap.stateUpd.getD "in" ≠ "post" ∧
    (extractPlays Sport.nfl c2snap.rawPlays ∅).1.length = 15 ∧
    (tick Sport.nfl {} (initState "A" "B" "AN" "BN" "in" "") (some c2snap)).1.plays_log.length = 10 ∧
    (tick Sport.nfl {} (initState "A" "B" "AN" "BN" "in" "") (some c2snap)).2 = [] :=
  ⟨by decide, by decide, by decide,
   (claim_C2_first_tick Sport.nfl {} "A" "B" "AN" "BN" "" c2snap
     (by decide) (by decide)).2.2.2.1 (by decide),
   (claim_C2_first_tick Sport.nfl {} "A" "B" "AN" "BN" "" c2snap
     (by decide) (by decide)).2.2.2.2⟩

theorem run_nil (sport : Sport) (cfg : Config) (st : AppState) :
    run sport cfg st [] = (st, []) := rfl

theorem run_cons (sport : Sport) (cfg : Config) (st : AppState)
    (f : Option Snapshot) (fs : List (Option Snapshot)) :
    run sport cfg st (f :: fs) =
      ((run sport cfg (tick sport cfg st f).1 fs).1,
       (tick sport cfg st f).2 :: (run sport cfg (tick sport cfg st f).1 fs).2) := rfl

theorem applyTrim_length_le (cfg : Config) (st : AppState) :
    (applyTrim cfg st).plays_log.length ≤ cfg.max_keep := by
  unfold applyTrim
  split
  next h => simp only [List.length_take]; omega
  next h => simpa using Nat.le_of_not_lt h

theorem applyTrim_finalized (cfg : Config) (st : AppState) :
    (applyTrim cfg st).finalized = st.finalized := by
  unfold applyTrim
  split <;> rfl

theorem tickCore_finalized (sport : Sport) (cfg : Config) (st : AppState)
    (data : Snapshot) :
    (tickCore sport cfg st data).1.finalized = st.finalized := by
  simp only [tickCore]
  split <;> rfl

/-- C4 fails as stated: with `max_scrollback` configured to 2, a
finalization tick leaves 3 entries in the buffer, because the three
final summary lines are inserted after the trim. -/
theorem claim_C4_counterexample :
    ({ max_keep := 2 } : Config).max_keep <
      (run Sport.nfl { max_keep := 2 } (initState "A" "B" "AN" "BN" "in" "")
        [some { stateUpd := some "post" }]).1.plays_log.length := by
  decide

/-- The buffer-bound invariant one tick preserves: at most `max_keep`
entries while running, at most `max_keep + 3` once finalized. -/
theorem tick_buffer_invariant (sport : Sport) (cfg : Config) (st : AppState)
    (f : Option Snapshot)
    (h1 : st.finalized = false → st.plays_log.length ≤ cfg.max_keep)
    (h2 : st.plays_log.length ≤ cfg.max_keep + 3) :
    ((tick sport cfg st f).1.finalized = false →
      (tick sport cfg st f).1.plays_log.length ≤ cfg.max_keep) ∧
    (tick sport cfg st f).1.plays_log.length ≤ cfg.max_keep + 3 := by
  by_cases hfin : st.finalized = true
  · rw [tick_of_finalized sport cfg st f hfin]
    exact ⟨h1, h2⟩
  · have hfin' : st.finalized = false := by
      cases h : st.finalized
      · rfl
      · exact absurd h hfin
    cases f with
    | none =>
      rw [tick_of_none sport cfg st hfin']
      exact ⟨fun _ => h1 hfin', Nat.le_trans (h1 hfin') (by omega)⟩
    | some data =>
      rw [tick_of_some sport cfg st data hfin']
      unfold applyFinal
      split
      · constructor
        · intro hc
          simp at hc
        · simp only [finalEntries, List.length_append, List.length_cons,
            List.length_nil]
          have := applyTrim_length_le cfg (tickCore sport cfg st data).1
          omega
      · have := applyTrim_length_le cfg (tickCore sport cfg st data).1
        exact ⟨fun _ => this, Nat.le_trans this (by omega)⟩

/-- C4 amended: after every tick of a session started from the initial
state, the display buffer holds at most `max_keep` entries while the
game is not finalized, and at most `max_keep + 3` entries in general —
the excess beyond `max_keep` can only be the three final summary
entries, inserted by the finalization tick after the trim. -/
theorem claim_C4_amended (sport : Sport) (cfg : Config)
    (aT hT aN hN gs gd : String) (trace : List (Option Snapshot)) :
    ((run sport cfg (initState aT hT aN hN gs gd) trace).1.finalized = false →
      (run sport cfg (initState aT hT aN hN gs gd) trace).1.plays_log.length ≤
        cfg.max_keep) ∧
    (run sport cfg (initState aT hT aN hN gs gd) trace).1.plays_log.length ≤
      cfg.max_keep + 3 := by
  have main :
      ∀ (tr : List (Option Snapshot)) (st : AppState),
        (st.finalized = false → st.plays_log.length ≤ cfg.max_keep) →
        st.plays_log.length ≤ cfg.max_keep + 3 →
        (((run sport cfg st tr).1.finalized = false →
          (run sport cfg st tr).1.plays_log.length ≤ cfg.max_keep) ∧
         (run sport cfg st tr).1.plays_log.length ≤ cfg.max_keep + 3) := by
    intro tr
    induction tr with
    | nil => intro st h1 h2; exact ⟨h1, h2⟩
    | cons f fs ih =>
      intro st h1 h2
      have h := tick_buffer_invariant sport cfg st f h1 h2
      rw [run_cons]
      exact ih (tick sport cfg st f).1 h.1 h.2
  exact main trace (initState aT hT aN hN gs gd)
    (fun _ => by simp [initState]) (by simp [initState])

theorem claim_C4_amended_witness :
    (run Sport.nfl {} (initState "A" "B" "AN" "BN" "in" "")
      [some { stateUpd := some "post" }]).1.plays_log.length ≤
      ({} : Config).max_keep + 3 :=
  (claim_C4_amended Sport.nfl {} "A" "B" "AN" "BN" "in" ""
    [some { stateUpd := some "post" }]).2

/-- Recognizer for the game-over notification. -/
def isGameOver : Event → Bool
  | .gameOver _ _ => true
  | _ => false

/-- Number of game-over notifications in one tick's event list. -/
def countGameOver (evs : List Event) : Nat :=
  evs.countP fun e => isGameOver e

/-- Total number of game-over notifications across a session. -/
def sumGameOver (evss : List (List Event)) : Nat :=
  (evss.map countGameOver).sum

theorem countGameOver_append (a b : List Event) :
    countGameOver (a ++ b) = countGameOver a + countGameOver b :=
  List.countP_append _ _ _

theorem countGameOver_playEvents (ps : List PlayRecord) (scores : Nat × Nat) :
    countGameOver (playEvents ps scores) = 0 := by
  rw [countGameOver, List.countP_eq_zero]
  intro e he
  simp only [playEvents, List.mem_filterMap] at he
  obtain ⟨p, _, hpe⟩ := he
  by_cases hs : p.scoring = true
  · rw [if_pos hs] at hpe
    cases Option.some.inj hpe
    simp [isGameOver]
  · rw [if_neg hs] at hpe
    cases hpe

theorem countGameOver_deltaEvents (prev cur : Nat × Nat) :
    countGameOver (deltaEvents prev cur) = 0 := by
  unfold deltaEvents
  cases scoreDelta prev cur <;> rfl

theorem countGameOver_tickCore (sport : Sport) (cfg : Config) (st : AppState)
    (data : Snapshot) :
    countGameOver (tickCore sport cfg st data).2 = 0 := by
  simp only [tickCore]
  split
  · rfl
  · rw [countGameOver_append, countGameOver_playEvents, countGameOver_deltaEvents]

theorem applyTrim_gameState (cfg : Config) (st : AppState) :
    (applyTrim cfg st).gameState = st.gameState := by
  unfold applyTrim
  split <;> rfl

theorem applyTrim_awayTeam (cfg : Config) (st : AppState) :
    (applyTrim cfg st).awayTeam = st.awayTeam := by
  unfold applyTrim
  split <;> rfl

theorem applyTrim_homeTeam (cfg : Config) (st : AppState) :
    (applyTrim cfg st).homeTeam = st.homeTeam := by
  unfold applyTrim
  split <;> rfl

theorem tickCore_gameState (sport : Sport) (cfg : Config) (st : AppState)
    (data : Snapshot) :
    (tickCore sport cfg st data).1.gameState = data.stateUpd.getD st.gameState := by
  simp only [tickCore]
  split <;> rfl

theorem tickCore_awayTeam (sport : Sport) (cfg : Config) (st : AppState)
    (data : Snapshot) :
    (tickCore sport cfg st data).1.awayTeam = st.awayTeam := by
  simp only [tickCore]
  split <;> rfl

theorem tickCore_homeTeam (sport : Sport) (cfg : Config) (st : AppState)
    (data : Snapshot) :
    (tickCore sport cfg st data).1.homeTeam = st.homeTeam := by
  simp only [tickCore]
  split <;> rfl

/-- A processing tick whose updated lifecycle state is `post` fires
exactly one game-over notification, stops the loop, and puts the final
summary entries at the head of the buffer. -/
theorem tick_post_fires (sport : Sport) (cfg : Config) (st : AppState)
    (data : Snapshot) (h : st.finalized = false)
    (hpost : data.stateUpd.getD st.gameState = "post") :
    countGameOver (tick sport cfg st (some data)).2 = 1 ∧
    (tick sport cfg st (some data)).1.finalized = true ∧
    ∃ rest, (tick sport cfg st (some data)).1.plays_log =
      finalEntries st.awayTeam st.homeTeam data.scores ++ rest := by
  rw [tick_of_some sport cfg st data h]
  unfold applyFinal
  rw [applyTrim_gameState, tickCore_gameState, applyTrim_awayTeam,
    tickCore_awayTeam, applyTrim_homeTeam, tickCore_homeTeam, if_pos hpost]
  refine ⟨?_, rfl, ⟨_, rfl⟩⟩
  rw [countGameOver_append, countGameOver_tickCore]
  rfl

/-- A processing tick whose updated state is not `post` fires no
game-over notification and keeps the loop running. -/
theorem tick_no_post (sport : Sport) (cfg : Config) (st : AppState)
    (data : Snapshot) (h : st.finalized = false)
    (hn : data.stateUpd.getD st.gameState ≠ "post") :
    countGameOver (tick sport cfg st (some data)).2 = 0 ∧
    (tick sport cfg st (some data)).1.finalized = false := by
  rw [tick_of_some sport cfg st data h]
  unfold applyFinal
  rw [applyTrim_gameState, tickCore_gameState, if_neg hn]
  refine ⟨countGameOver_tickCore sport cfg st data, ?_⟩
  rw [applyTrim_finalized, tickCore_finalized]
  exact h

theorem run_gameOver_le (sport : Sport) (cfg : Config) :
    ∀ (trace : List (Option Snapshot)) (st : AppState),
      sumGameOver (run sport cfg st trace).2 ≤
        (if st.finalized = true then 0 else 1) := by
  intro trace
  induction trace with
  | nil =>
    intro st
    simp [run_nil, sumGameOver]
  | cons f fs ih =>
    intro st
    rw [run_cons]
    have hsum :
        sumGameOver ((tick sport cfg st f).2 ::
            (run sport cfg (tick sport cfg st f).1 fs).2) =
          countGameOver (tick sport cfg st f).2 +
            sumGameOver (run sport cfg (tick sport cfg st f).1 fs).2 := by
      simp [sumGameOver]
    rw [hsum]
    by_cases hfin : st.finalized = true
    · rw [tick_of_finalized sport cfg st f hfin]
      have := ih st
      simp only [hfin, if_pos] at this ⊢
      simpa [countGameOver] using this
    · have hfin' : st.finalized = false := by
        cases hb : st.finalized
        · rfl
        · exact absurd hb hfin
      cases f with
      | none =>
        rw [tick_of_none sport cfg st hfin']
        have := ih ({ st with net_status := "NO DATA" })
        simp only [hfin'] at this ⊢
        simpa [countGameOver] using this
      | some data =>
        by_cases hpost : data.stateUpd.getD st.gameState = "post"
        · have hf := tick_post_fires sport cfg st data hfin' hpost
          have hrest := ih (tick sport cfg st (some data)).1
          rw [hf.2.1] at hrest
          rw [hf.1]
          simp only [hfin']
          simp at hrest ⊢
          omega
        · have hf := tick_no_post sport cfg st data hfin' hpost
          have hrest := ih (tick sport cfg st (some data)).1
          rw [hf.2] at hrest
          rw [hf.1]
          simp only [hfin']
          simp at hrest ⊢
          omega

/-- C5: in every session the game-over notification and final summary
fire exactly once — a processing tick that sees lifecycle state `post`
fires one game-over notification, emits the summary entries and sets
the finalized flag; across any whole session from the initial state at
most one game-over fires; and once finalized, every subsequent tick
does nothing at all (state unchanged, no fetch handling, no dedup, no
notification, no buffer update). -/
theorem claim_C5_finalize_once (sport : Sport) (cfg : Config)
    (aT hT aN hN gs gd : String) :
    (∀ trace, sumGameOver
        (run sport cfg (initState aT hT aN hN gs gd) trace).2 ≤ 1) ∧
    (∀ st data, st.finalized = false →
      data.stateUpd.getD st.gameState = "post" →
      countGameOver (tick sport cfg st (some data)).2 = 1 ∧
      (tick sport cfg st (some data)).1.finalized = true ∧
      ∃ rest, (tick sport cfg st (some data)).1.plays_log =
        finalEntries st.awayTeam st.homeTeam data.scores ++ rest) ∧
    (∀ st f, st.finalized = true → tick sport cfg st f = (st, [])) := by
  refine ⟨?_, ?_, ?_⟩
  · intro trace
    have := run_gameOver_le sport cfg trace (initState aT hT aN hN gs gd)
    simpa [initState] using this
  · intro st data h hpost
    exact tick_post_fires sport cfg st data h hpost
  · intro st f h
    exact tick_of_finalized sport cfg st f h

/-- A concrete finalized state for the C5 witness. -/
def c5st : AppState :=
  { initState "A" "B" "AN" "BN" "in" "" with finalized := true }

theorem claim_C5_finalize_once_witness :
    c5st.finalized = true ∧ tick Sport.nfl {} c5st none = (c5st, []) :=
  ⟨rfl,
   (claim_C5_finalize_once Sport.nfl {} "A" "B" "AN" "BN" "in" "").2.2 c5st none rfl⟩

theorem applyTrim_seen (cfg : Config) (st : AppState) :
    (applyTrim cfg st).last_play_ids = st.last_play_ids := by
  unfold applyTrim
  split <;> rfl

theorem applyFinal_seen (st : AppState) (scores : Nat × Nat) (evs : List Event) :
    (applyFinal st scores evs).1.last_play_ids = st.last_play_ids := by
  unfold applyFinal
  split <;> rfl

theorem tickCore_seen (sport : Sport) (cfg : Config) (st : AppState)
    (data : Snapshot) :
    (tickCore sport cfg st data).1.last_play_ids =
      (extractPlays sport data.rawPlays st.last_play_ids).2 := by
  simp only [tickCore]
  split <;> rfl

/-- After a processing tick, the seen set is exactly the extraction's
updated set. -/
theorem tick_seen_some (sport : Sport) (cfg : Config) (st : AppState)
    (data : Snapshot) (h : st.finalized = false) :
    (tick sport cfg st (some data)).1.last_play_ids =
      (extractPlays sport data.rawPlays st.last_play_ids).2 := by
  rw [tick_of_some sport cfg st data h, applyFinal_seen, applyTrim_seen,
    tickCore_seen]

theorem extractPlays_seen (sport : Sport) (raws : List RawPlay)
    (seen : Finset String) :
    (extractPlays sport raws seen).2 =
      seen ∪ ((extractPlays sport raws seen).1.map PlayRecord.id).toFinset := by
  cases sport
  · exact dedupeGo_seen projNfl (fun _ _ => rfl) raws seen
  · exact dedupeGo_seen projBkb (fun _ _ => rfl) raws seen

theorem extractPlays_sound (sport : Sport) (raws : List RawPlay)
    (seen : Finset String) (q : PlayRecord)
    (hq : q ∈ (extractPlays sport raws seen).1) : q.id ∉ seen := by
  cases sport
  · exact (dedupeGo_sound projNfl (fun _ _ => rfl) raws seen q hq).1
  · exact (dedupeGo_sound projBkb (fun _ _ => rfl) raws seen q hq).1

theorem extractPlays_mem_seen (sport : Sport) (raws : List RawPlay)
    (seen : Finset String) (q : PlayRecord)
    (hq : q ∈ (extractPlays sport raws seen).1) :
    q.id ∈ (extractPlays sport raws seen).2 := by
  rw [extractPlays_seen]
  exact Finset.mem_union_right _
    (List.mem_toFinset.mpr (List.mem_map_of_mem PlayRecord.id hq))

theorem extractPlays_seen_mono (sport : Sport) (raws : List RawPlay)
    (seen : Finset String) :
    seen ⊆ (extractPlays sport raws seen).2 := by
  rw [extractPlays_seen]
  exact Finset.subset_union_left

theorem tick_seen_mono (sport : Sport) (cfg : Config) (st : AppState)
    (f : Option Snapshot) :
    st.last_play_ids ⊆ (tick sport cfg st f).1.last_play_ids := by
  by_cases hfin : st.finalized = true
  · rw [tick_of_finalized sport cfg st f hfin]
  · have hfin' : st.finalized = false := by
      cases hb : st.finalized
      · rfl
      · exact absurd hb hfin
    cases f with
    | none => rw [tick_of_none sport cfg st hfin']
    | some data =>
      rw [tick_seen_some sport cfg st data hfin']
      exact extractPlays_seen_mono sport data.rawPlays st.last_play_ids

theorem run_seen_mono (sport : Sport) (cfg : Config) :
    ∀ (trace : List (Option Snapshot)) (st : AppState),
      st.last_play_ids ⊆ (run sport cfg st trace).1.last_play_ids := by
  intro trace
  induction trace with
  | nil => intro st; rw [run_nil]
  | cons f fs ih =>
    intro st
    rw [run_cons]
    exact Finset.Subset.trans (tick_seen_mono sport cfg st f)
      (ih (tick sport cfg st f).1)

/-- C9: the seen-identifier set grows monotonically — every tick and
every whole session only add identifiers (none is ever removed), a
freshly extracted play is never one whose id was already in the set at
extraction time (and its id is marked seen), and after any further run
of the session the extraction never re-emits an identifier that was
already in the set. -/
theorem claim_C9_seen_monotone (sport : Sport) (cfg : Config) :
    (∀ st f, st.last_play_ids ⊆ (tick sport cfg st f).1.last_play_ids) ∧
    (∀ st trace, st.last_play_ids ⊆ (run sport cfg st trace).1.last_play_ids) ∧
    (∀ raws seen (q : PlayRecord), q ∈ (extractPlays sport raws seen).1 →
      q.id ∉ seen ∧ q.id ∈ (extractPlays sport raws seen).2) ∧
    (∀ st trace raws (q : PlayRecord),
      q ∈ (extractPlays sport raws
        (run sport cfg st trace).1.last_play_ids).1 →
      q.id ∉ st.last_play_ids) := by
  refine ⟨tick_seen_mono sport cfg, fun st trace => run_seen_mono sport cfg trace st,
    ?_, ?_⟩
  · intro raws seen q hq
    exact ⟨extractPlays_sound sport raws seen q hq,
      extractPlays_mem_seen sport raws seen q hq⟩
  · intro st trace raws q hq hmem
    exact extractPlays_sound sport raws _ q hq
      (run_seen_mono sport cfg trace st hmem)

theorem claim_C9_seen_monotone_witness :
    ({ id := "x" } : PlayRecord) ∈
      (extractPlays Sport.nfl [{ id := some "x" }] ∅).1 ∧
    ("x" : String) ∉ (∅ : Finset String) ∧
    ("x" : String) ∈ (extractPlays Sport.nfl [{ id := some "x" }] ∅).2 :=
  ⟨by decide,
   ((claim_C9_seen_monotone Sport.nfl {}).2.2.1 [{ id := some "x" }] ∅
     { id := "x" } (by decide)).1,
   ((claim_C9_seen_monotone Sport.nfl {}).2.2.1 [{ id := some "x" }] ∅
     { id := "x" } (by decide)).2⟩

/-- C10: on the first tick every extracted play's identifier enters the
seen set before the truncation to the last 10, the buffer receives
exactly the last 10 entries, and on every later tick of the session the
extraction can never return a play carrying any of those identifiers —
the plays beyond the last 10 are permanently suppressed, not
deferred. -/
theorem claim_C10_permanent_suppression (sport : Sport) (cfg : Config)
    (aT hT aN hN gd : String) (snap : Snapshot)
    (hmax : 10 ≤ cfg.max_keep)
    (hpost : snap.stateUpd.getD "in" ≠ "post")
    (hlen : 10 < (extractPlays sport snap.rawPlays ∅).1.length) :
    (∀ p ∈ (extractPlays sport snap.rawPlays ∅).1,
      p.id ∈ (tick sport cfg (initState aT hT aN hN "in" gd)
        (some snap)).1.last_play_ids) ∧
    (tick sport cfg (initState aT hT aN hN "in" gd) (some snap)).1.plays_log =
      ((lastN 10 (extractPlays sport snap.rawPlays ∅).1).map
        (mkEntry cfg.emoji_overrides sport)).reverse ∧
    (∀ trace raws (q : PlayRecord),
      q ∈ (extractPlays sport raws
        (run sport cfg (tick sport cfg (initState aT hT aN hN "in" gd)
          (some snap)).1 trace).1.last_play_ids).1 →
      ∀ p ∈ (extractPlays sport snap.rawPlays ∅).1, q.id ≠ p.id) := by
  have hmain := tick_first sport cfg aT hT aN hN gd snap hmax hpost
  have hseen :
      (tick sport cfg (initState aT hT aN hN "in" gd)
        (some snap)).1.last_play_ids = (extractPlays sport snap.rawPlays ∅).2 := by
    rw [hmain]
  have hin : ∀ p ∈ (extractPlays sport snap.rawPlays ∅).1,
      p.id ∈ (tick sport cfg (initState aT hT aN hN "in" gd)
        (some snap)).1.last_play_ids := by
    intro p hp
    rw [hseen]
    exact extractPlays_mem_seen sport snap.rawPlays ∅ p hp
  refine ⟨hin, by rw [hmain], ?_⟩
  intro trace raws q hq p hp hqp
  have hq_not := extractPlays_sound sport raws _ q hq
  have hp_run : p.id ∈
      (run sport cfg (tick sport cfg (initState aT hT aN hN "in" gd)
        (some snap)).1 trace).1.last_play_ids :=
    run_seen_mono sport cfg trace _ (hin p hp)
  rw [hqp] at hq_not
  exact hq_not hp_run

/-- Concrete first-tick snapshot with 11 unseen plays (ids "0".."10");
the truncation drops the play with id "0". -/
def c10snap : Snapshot :=
  { stateUpd := some "in",
    rawPlays := (List.range 11).map fun n => { id := some (toString n) } }

theorem claim_C10_permanent_suppression_witness :
    10 ≤ ({} : Config).max_keep ∧
    c10snap.stateUpd.getD "in" ≠ "post" ∧
    10 < (extractPlays Sport.nfl c10snap.rawPlays ∅).1.length ∧
    ({ id := "z" } : PlayRecord).id ≠ ({ id := "0" } : PlayRecord).id :=
  ⟨by decide, by decide, by decide,
   (claim_C10_permanent_suppression Sport.nfl {} "A" "B" "AN" "BN" "" c10snap
     (by decide) (by decide) (by decide)).2.2
     [] [{ id := some "z" }] { id := "z" } (by decide) { id := "0" } (by decide)⟩

end Gamemon
